import Mathlib

/-!
Verification of the AutoCFP conference-calendar logic (public/js/calendar.js).

The file shallowly embeds the data model and the pure core of the
ConferenceCalendar class: the filter predicate of applyFilters, the
month-window generator generateMonths, the deadline bucketizer
getDeadlinesInMonth, the marker date formatting of createDeadlineMarker,
the Predicted annotation of showDeadlineDetails, and stripThemePrefix.
JavaScript strings are Lean String values; absent (undefined) fields are
Option; a JS Set of strings is represented by the list of its elements
(only membership and emptiness are used by the code); Date objects are
modelled by their parsed calendar components, observed at UTC.
-/

/-! ## JavaScript string primitives -/

/-- Models String.prototype.toLowerCase on the ASCII range (Char.toLower
lowers only A-Z; the repository data is ASCII). -/
def jsToLower (s : String) : String := ⟨s.data.map Char.toLower⟩

/-- Auxiliary for jsIncludes: does hay start with needle. -/
def strStarts : List Char → List Char → Bool
  | [], _ => true
  | _ :: _, [] => false
  | a :: as, b :: bs => a == b && strStarts as bs

/-- Auxiliary for jsIncludes: does some suffix of hay start with needle. -/
def strHas (needle : List Char) : List Char → Bool
  | [] => needle.isEmpty
  | c :: t => strStarts needle (c :: t) || strHas needle t

/-- Models hay.includes(needle) of JS String.prototype.includes. -/
def jsIncludes (hay needle : String) : Bool := strHas needle.data hay.data

/-- JS truthiness of an optional string: undefined and the empty string
are falsy, every other string is truthy. -/
def truthyStr : Option String → Bool
  | none => false
  | some s => !(s == "")

/-! ## JavaScript Date model -/

/-- Result of a successful date parse: getFullYear, getMonth (0-based)
and getDate of the source code's Date objects, observed at UTC (zero
local offset). -/
structure ParsedDate where
  year : Int
  monthIndex : Nat
  day : Nat
deriving DecidableEq

/-- Leap-year rule of the Gregorian calendar used by ECMAScript dates. -/
def isLeapYear (y : Int) : Bool :=
  (y % 4 == 0 && !(y % 100 == 0)) || y % 400 == 0

/-- Number of days of month m (1-12) of year y. -/
def daysInMonth (y : Int) (m : Nat) : Nat :=
  if m = 2 then (if isLeapYear y then 29 else 28)
  else if m = 4 ∨ m = 6 ∨ m = 9 ∨ m = 11 then 30
  else 31

/-- Numeric value of an ASCII digit character. -/
def digitVal (c : Char) : Nat := c.toNat - 48

/-- Models new Date(string) of ECMAScript for the date-only ISO form
YYYY-MM-DD used by the repository's JSON data, observed at UTC: a
ten-character string with digits and hyphens in the ISO positions and
in-range month and day parses to its components; every other string is
treated as an invalid date (whose NaN components compare false against
every month slot, exactly as in the code). -/
def jsParseDate (s : String) : Option ParsedDate :=
  match s.data with
  | [y1, y2, y3, y4, h1, m1, m2, h2, d1, d2] =>
    if y1.isDigit && y2.isDigit && y3.isDigit && y4.isDigit
        && h1 == '-' && m1.isDigit && m2.isDigit
        && h2 == '-' && d1.isDigit && d2.isDigit then
      let y : Int := (digitVal y1 * 1000 + digitVal y2 * 100 + digitVal y3 * 10 + digitVal y4 : Nat)
      let mo := digitVal m1 * 10 + digitVal m2
      let d := digitVal d1 * 10 + digitVal d2
      if 1 ≤ mo ∧ mo ≤ 12 ∧ 1 ≤ d ∧ d ≤ daysInMonth y mo then
        some { year := y, monthIndex := mo - 1, day := d }
      else none
    else none
  | _ => none

/-! ## Data model (spec section 3, as consumed by calendar.js) -/

/-- The conference_dates object of a YearInfo. The source field end is a
Lean keyword, hence the guillemets. -/
structure ConferenceDates where
  start : Option String
  «end» : Option String
deriving DecidableEq

/-- One deadline entry of a YearInfo's deadlines array. -/
structure DeadlineRecord where
  type : Option String
  date : Option String
  label : Option String
  is_predicted : Option Bool
deriving DecidableEq

/-- One value of the information mapping of a conference. -/
structure YearInfo where
  deadlines : Option (List DeadlineRecord)
  conference_dates : Option ConferenceDates
  is_predicted : Option Bool
deriving DecidableEq

/-- One element of the conferences array. The information object is
modelled as an association list from year label to YearInfo, in the
enumeration order of Object.keys. -/
structure ConferenceRecord where
  name : Option String
  short_name : Option String
  rank : Option String
  url : Option String
  theme : Option String
  themes : Option (List String)
  flagship : Option Bool
  information : Option (List (String × YearInfo))
deriving DecidableEq

/-- One generated month column: the year, month (1-12) and label fields
pushed by generateMonths (the redundant date field is omitted). -/
structure MonthSlot where
  year : Int
  month : Nat
  label : String
deriving DecidableEq

/-- The currentFilters object: the selected theme set (list of its
elements; the code uses only membership and emptiness) and the search
string as stored by the input listener. -/
structure FilterState where
  themes : List String
  search : String
deriving DecidableEq

/-- The mutable fields of the ConferenceCalendar instance touched by
applyFilters. -/
structure CalendarState where
  conferences : List ConferenceRecord
  filteredConferences : List ConferenceRecord
  currentFilters : FilterState
deriving DecidableEq

/-- An object pushed by getDeadlinesInMonth: either a spread copy of a
DeadlineRecord or the synthetic conference entry, in both cases extended
with conferenceName and conferenceYear. -/
structure DeadlineEntry where
  type : Option String
  date : Option String
  endDate : Option String
  label : Option String
  is_predicted : Option Bool
  conferenceName : Option String
  conferenceYear : String
deriving DecidableEq

/-! ## generateMonths -/

/-- String(n).padStart(2, the zero character) for the month numbers 1-12. -/
def pad2 (n : Nat) : String := if n < 10 then "0" ++ toString n else toString n

/-- The slot pushed at loop index i of generateMonths: the Date
constructor new Date(startYear, 3 + i, 1) normalizes month overflow into
the year. -/
def monthSlotAt (fiscalYearStart : Int) (i : Nat) : MonthSlot :=
  let y := fiscalYearStart + ((3 + i) / 12 : Nat)
  let m := (3 + i) % 12 + 1
  { year := y, month := m, label := toString y ++ "/" ++ pad2 m }

/-- The two fields generateMonths assigns on the instance. -/
structure MonthsResult where
  months : List MonthSlot
  currentMonthIndex : Int
deriving DecidableEq

/-- ConferenceCalendar.generateMonths as a function of the current year
and the current 0-based month (getFullYear and getMonth of now). -/
def generateMonths (currentYear : Int) (currentMonth : Nat) : MonthsResult :=
  let fiscalYearStart := if 3 ≤ currentMonth then currentYear else currentYear - 1
  let totalMonths : Int :=
    (fiscalYearStart + 2 - fiscalYearStart) * 12 + ((2 : Int) - 3) + 1
  { months := (List.range totalMonths.toNat).map (monthSlotAt fiscalYearStart)
    currentMonthIndex := (currentYear - fiscalYearStart) * 12 + ((currentMonth : Int) - 3) }

/-! ## applyFilters -/

/-- The confThemes computation: conf.themes when it is an array,
otherwise the singleton of the legacy conf.theme field (which may be
undefined). -/
def effectiveThemes (conf : ConferenceRecord) : List (Option String) :=
  match conf.themes with
  | some l => l.map some
  | none => [conf.theme]

/-- Membership of a possibly undefined theme in the selected set; a JS
Set of strings never contains undefined. -/
def themeSelected (selected : List String) : Option String → Bool
  | some t => selected.contains t
  | none => false

/-- The filter callback of applyFilters. -/
def filterConference (filters : FilterState) (conf : ConferenceRecord) : Bool :=
  if filters.themes.isEmpty then false
  else
    let confThemes := effectiveThemes conf
    let hasMatchingTheme := confThemes.any (themeSelected filters.themes)
    if !hasMatchingTheme then false
    else if !(filters.search == "") then
      let searchLower := filters.search
      let nameMatch := jsIncludes (jsToLower (conf.name.getD "")) searchLower
      let shortNameMatch := jsIncludes (jsToLower (conf.short_name.getD "")) searchLower
      let themeMatch := confThemes.any fun t => jsIncludes (jsToLower (t.getD "")) searchLower
      nameMatch || shortNameMatch || themeMatch
    else true

/-- ConferenceCalendar.applyFilters restricted to its state effect: it
assigns this.filteredConferences from this.conferences and the current
filters (renderCalendar only redraws the DOM from the new state). -/
def applyFilters (st : CalendarState) : CalendarState :=
  { st with filteredConferences := st.conferences.filter (filterConference st.currentFilters) }

/-- Inclusion as the specification words it, for comparison with
filterConference: the effective theme set intersects the selected
themes, and when the search string is non-empty it is a case-insensitive
substring of the name, the short name or some effective theme. -/
def specIncluded (filters : FilterState) (conf : ConferenceRecord) : Bool :=
  (effectiveThemes conf).any (themeSelected filters.themes)
    && (filters.search == ""
      || jsIncludes (jsToLower (conf.name.getD "")) (jsToLower filters.search)
      || jsIncludes (jsToLower (conf.short_name.getD "")) (jsToLower filters.search)
      || (effectiveThemes conf).any fun t => jsIncludes (jsToLower (t.getD "")) (jsToLower filters.search))

/-! ## getDeadlinesInMonth -/

/-- The per-deadline test of getDeadlinesInMonth: the date field is
truthy, and the parsed date's getFullYear and getMonth + 1 equal the
slot's year and month (an invalid date yields NaN components which
compare false). -/
def deadlineLandsIn (deadline : DeadlineRecord) (month : MonthSlot) : Bool :=
  match deadline.date with
  | none => false
  | some dstr =>
    if dstr = "" then false
    else
      match jsParseDate dstr with
      | some dt => if dt.year = month.year ∧ dt.monthIndex + 1 = month.month then true else false
      | none => false

/-- The conference-dates test of getDeadlinesInMonth: start is truthy
and its parsed year and month equal the slot's. -/
def confDatesLandIn (cd : ConferenceDates) (month : MonthSlot) : Bool :=
  match cd.start with
  | none => false
  | some s =>
    if s = "" then false
    else
      match jsParseDate s with
      | some dt => if dt.year = month.year ∧ dt.monthIndex + 1 = month.month then true else false
      | none => false

/-- The spread-copy entry pushed for a matching deadline record. -/
def deadlineEntryOf (conference : ConferenceRecord) (confYear : String)
    (deadline : DeadlineRecord) : DeadlineEntry :=
  { type := deadline.type
    date := deadline.date
    endDate := none
    label := deadline.label
    is_predicted := deadline.is_predicted
    conferenceName := conference.short_name
    conferenceYear := confYear }

/-- The synthetic entry pushed for matching conference dates. -/
def conferenceEntryOf (conference : ConferenceRecord) (confYear : String)
    (yearInfo : YearInfo) (cd : ConferenceDates) : DeadlineEntry :=
  { type := some "conference"
    date := cd.start
    endDate := cd.«end»
    label := some "Conference Date"
    is_predicted := some (yearInfo.is_predicted.getD false)
    conferenceName := conference.short_name
    conferenceYear := confYear }

/-- ConferenceCalendar.getDeadlinesInMonth: iterate the information
entries; for each year first push a decorated copy of every deadline
whose date lands in the slot, then, when the conference dates land in
the slot, push one synthetic conference entry. -/
def getDeadlinesInMonth (conference : ConferenceRecord) (month : MonthSlot) : List DeadlineEntry :=
  match conference.information with
  | none => []
  | some information =>
    information.flatMap fun p =>
      (match p.2.deadlines with
        | none => []
        | some ds =>
          ds.filterMap fun deadline =>
            if deadlineLandsIn deadline month then
              some (deadlineEntryOf conference p.1 deadline)
            else none)
        ++ (match p.2.conference_dates with
          | none => []
          | some cd =>
            if confDatesLandIn cd month then [conferenceEntryOf conference p.1 p.2 cd]
            else [])

/-- Console warnings emitted while bucketizing a conference into a
month slot: the body of getDeadlinesInMonth contains no console call,
so the list is empty (the only warning of the rendering path lives in
createDeadlineMarker and fires only for entries that were emitted into
a bucket). -/
def getDeadlinesInMonthWarnings (_conference : ConferenceRecord) (_month : MonthSlot) :
    List String := []

/-- Whether some year of the information mapping contributes a synthetic
conference entry to the slot. -/
def yearConfLandsIn (yearInfo : YearInfo) (month : MonthSlot) : Bool :=
  match yearInfo.conference_dates with
  | none => false
  | some cd => confDatesLandIn cd month

/-! ## createDeadlineMarker and showDeadlineDetails -/

/-- The month/day piece of the marker text: getMonth + 1 and getDate of
new Date of the given optional string, the NaN/NaN rendering when the
date is invalid or absent. -/
def jsMonthDay (o : Option String) : String :=
  match jsParseDate (o.getD "") with
  | some dt => toString (dt.monthIndex + 1) ++ "/" ++ toString dt.day
  | none => "NaN/NaN"

/-- The dateStr computed by createDeadlineMarker: a start-end range for
a conference entry with a truthy endDate, otherwise a single month/day. -/
def formatDeadline (deadline : DeadlineEntry) : String :=
  if deadline.type = some "conference" ∧ truthyStr deadline.endDate = true then
    jsMonthDay deadline.date ++ "-" ++ jsMonthDay deadline.endDate
  else
    jsMonthDay deadline.date

/-- The Predicted note of the showDeadlineDetails popup: present exactly
when the entry's is_predicted field is truthy. -/
def predictedNote (deadline : DeadlineEntry) : String :=
  if deadline.is_predicted.getD false = true then
    "<div class=\"deadline-detail-note\">Predicted</div>"
  else ""

/-! ## stripThemePrefix -/

/-- The whitespace class of the source regex and of String.prototype.trim,
on the ASCII range. -/
def jsSpace (c : Char) : Bool :=
  c == ' ' || c == '\t' || c == '\n' || c == '\r' || c == '\x0b' || c == '\x0c'

/-- One character of the bracket class of the source regex: a dot or a
whitespace character. -/
def themeSep (c : Char) : Bool := c == '.' || jsSpace c

/-- Models String.prototype.trim on the ASCII range. -/
def jsTrim (s : String) : String :=
  ⟨((s.data.dropWhile jsSpace).reverse.dropWhile jsSpace).reverse⟩

/-- ConferenceCalendar.stripThemePrefix: a falsy theme is returned as
is; otherwise the anchored greedy match of one or more digits followed
by one or more dot-or-whitespace characters is removed when present,
and the result is trimmed. -/
def stripThemePrefix (theme : String) : String :=
  if theme = "" then theme
  else
    let cs := theme.data
    let replaced :=
      if (cs.takeWhile Char.isDigit).isEmpty then cs
      else
        let rest := cs.dropWhile Char.isDigit
        if (rest.takeWhile themeSep).isEmpty then cs
        else rest.dropWhile themeSep
    jsTrim ⟨replaced⟩

/-- Whether the theme string carries the numeric mark the regex strips:
a non-empty run of leading digits followed by a non-empty run of
dot-or-whitespace characters. -/
def hasNumericThemeMark (s : String) : Bool :=
  !(s.data.takeWhile Char.isDigit).isEmpty
    && !((s.data.dropWhile Char.isDigit).takeWhile themeSep).isEmpty

/-! ## Specification-side helpers and sample data -/

/-- Year and month of a slot, for window statements. -/
def slotYM (s : MonthSlot) : Int × Nat := (s.year, s.month)

/-- Successor of a (year, month) pair in calendar order. -/
def nextYM (p : Int × Nat) : Int × Nat :=
  if p.2 = 12 then (p.1 + 1, 1) else (p.1, p.2 + 1)

/-- Sample deadline dated 2026-03-10. -/
def marchDeadline : DeadlineRecord :=
  { type := some "submission"
    date := some "2026-03-10"
    label := some "Submission Deadline"
    is_predicted := some false }

/-- Sample conference holding only marchDeadline under year label 2026. -/
def marchConf : ConferenceRecord :=
  { name := some "International Conference on March Matters"
    short_name := some "ICMM"
    rank := some "A"
    url := none
    theme := none
    themes := some ["01. Systems"]
    flagship := some false
    information := some [("2026",
      { deadlines := some [marchDeadline]
        conference_dates := none
        is_predicted := none })] }

/-- Sample conference dates 2026-06-01 through 2026-06-05. -/
def juneCD : ConferenceDates := { start := some "2026-06-01", «end» := some "2026-06-05" }

/-- Sample YearInfo holding only juneCD. -/
def juneYearInfo : YearInfo :=
  { deadlines := none, conference_dates := some juneCD, is_predicted := none }

/-- Sample conference holding only juneYearInfo under year label 2026. -/
def juneConf : ConferenceRecord :=
  { name := some "June Conference"
    short_name := some "JUNE"
    rank := some "B"
    url := none
    theme := some "02. Theory"
    themes := none
    flagship := none
    information := some [("2026", juneYearInfo)] }

/-- The synthetic entry juneConf produces in June 2026. -/
def juneEntry : DeadlineEntry := conferenceEntryOf juneConf "2026" juneYearInfo juneCD

/-- Sample deadline whose date is the empty string (falsy, unparseable). -/
def emptyDateDeadline : DeadlineRecord :=
  { type := some "submission"
    date := some ""
    label := some "Submission Deadline"
    is_predicted := none }

/-- Sample YearInfo mixing the bad-date deadline with a good one. -/
def mixedYearInfo : YearInfo :=
  { deadlines := some [emptyDateDeadline, marchDeadline]
    conference_dates := none
    is_predicted := none }

/-- Sample conference mixing a bad-date deadline with a good one. -/
def mixedConf : ConferenceRecord :=
  { name := some "Mixed Conference"
    short_name := some "MIX"
    rank := some "C"
    url := none
    theme := some "03. Data"
    themes := none
    flagship := none
    information := some [("2026", mixedYearInfo)] }

/-- Sample conference with no information mapping at all. -/
def bareConf : ConferenceRecord :=
  { name := some "Bare Conference"
    short_name := some "BARE"
    rank := some "C"
    url := none
    theme := some "04. Misc"
    themes := none
    flagship := none
    information := none }

/-- Sample calendar state: one selected theme, search string sys. -/
def filterSampleState : CalendarState :=
  { conferences := [marchConf, juneConf]
    filteredConferences := []
    currentFilters := { themes := ["01. Systems"], search := "sys" } }

/-- Sample calendar state with an empty selected theme set. -/
def emptyThemesState : CalendarState :=
  { conferences := [marchConf, juneConf]
    filteredConferences := [marchConf]
    currentFilters := { themes := [], search := "sys" } }

/-! ## General list helpers -/

/-- A filterMap whose function is an if-then-some-else-none is a filter
followed by a map. -/
theorem filterMap_if_eq {α β : Type} (l : List α) (p : α → Bool) (g : α → β) :
    (l.filterMap fun a => if p a then some (g a) else none) = (l.filter p).map g := by
  induction l with
  | nil => rfl
  | cons a t ih => by_cases h : p a <;> simp [List.filterMap_cons, List.filter_cons, h, ih]

/-- takeWhile runs through a leading block on which the predicate holds. -/
theorem takeWhile_append_all {α : Type} (p : α → Bool) (l1 l2 : List α)
    (h : ∀ c ∈ l1, p c = true) : (l1 ++ l2).takeWhile p = l1 ++ l2.takeWhile p := by
  induction l1 with
  | nil => simp
  | cons a t ih =>
    have ha := h a (by simp)
    simp only [List.cons_append, List.takeWhile_cons, ha, if_true]
    rw [ih fun c hc => h c (by simp [hc])]

/-- dropWhile removes a leading block on which the predicate holds. -/
theorem dropWhile_append_all {α : Type} (p : α → Bool) (l1 l2 : List α)
    (h : ∀ c ∈ l1, p c = true) : (l1 ++ l2).dropWhile p = l2.dropWhile p := by
  induction l1 with
  | nil => simp
  | cons a t ih =>
    have ha := h a (by simp)
    simp only [List.cons_append, List.dropWhile_cons, ha, if_true]
    exact ih fun c hc => h c (by simp [hc])

/-- takeWhile stops immediately when the predicate fails on the head. -/
theorem takeWhile_head_false {α : Type} (p : α → Bool) (l : List α)
    (h : ∀ c ∈ l.head?, p c = false) : l.takeWhile p = [] := by
  cases l with
  | nil => rfl
  | cons a t =>
    have ha := h a (by simp)
    simp [List.takeWhile_cons, ha]

/-- dropWhile removes nothing when the predicate fails on the head. -/
theorem dropWhile_head_false {α : Type} (p : α → Bool) (l : List α)
    (h : ∀ c ∈ l.head?, p c = false) : l.dropWhile p = l := by
  cases l with
  | nil => rfl
  | cons a t =>
    have ha := h a (by simp)
    simp [List.dropWhile_cons, ha]

/-! ## Filter predicate facts -/

/-- The filter callback agrees with the specification predicate on every
conference once the selected set is non-empty and the stored search
string is lowercase (the input listener stores e.target.value
lowercased, so every reachable filter state satisfies this). -/
theorem filterConference_eq_spec (filters : FilterState) (conf : ConferenceRecord)
    (hne : filters.themes ≠ []) (hlow : jsToLower filters.search = filters.search) :
    filterConference filters conf = specIncluded filters conf := by
  have hem : filters.themes.isEmpty = false := by
    cases h : filters.themes with
    | nil => exact absurd h hne
    | cons a t => rfl
  unfold filterConference specIncluded
  rw [hlow, hem]
  cases h1 : (effectiveThemes conf).any (themeSelected filters.themes) <;>
    cases h2 : filters.search == "" <;>
      simp [h1, h2]

/-- C1: for every conference list, every search string, and every filter
state whose selected theme set is empty, applyFilters produces an empty
filtered result. -/
theorem applyFilters_empty_themes (st : CalendarState)
    (h : st.currentFilters.themes = []) :
    (applyFilters st).filteredConferences = [] := by
  have hf : ∀ c, filterConference st.currentFilters c = false := by
    intro c
    unfold filterConference
    rw [h]
    rfl
  show st.conferences.filter _ = []
  simp [List.filter_eq_nil_iff, hf]

/-- Witness for applyFilters_empty_themes at a concrete state. -/
theorem applyFilters_empty_themes_witness :
    emptyThemesState.currentFilters.themes = []
    ∧ (applyFilters emptyThemesState).filteredConferences = [] :=
  ⟨rfl, applyFilters_empty_themes emptyThemesState rfl⟩

/-- C2: with a non-empty selected theme set and the lowercase search
invariant maintained by the input listener, the filtered list is exactly
the stable filter of the conference list by the specification predicate
(effective-theme intersection plus case-insensitive substring search),
hence a subsequence of the original list in its original order. -/
theorem applyFilters_theme_search (st : CalendarState)
    (hne : st.currentFilters.themes ≠ [])
    (hlow : jsToLower st.currentFilters.search = st.currentFilters.search) :
    (applyFilters st).filteredConferences
        = st.conferences.filter (specIncluded st.currentFilters)
    ∧ (applyFilters st).filteredConferences.Sublist st.conferences := by
  constructor
  · show st.conferences.filter _ = _
    exact List.filter_congr fun c _ => filterConference_eq_spec st.currentFilters c hne hlow
  · exact List.filter_sublist _

/-- Witness for applyFilters_theme_search at a concrete state. -/
theorem applyFilters_theme_search_witness :
    (filterSampleState.currentFilters.themes ≠ []
      ∧ jsToLower filterSampleState.currentFilters.search = filterSampleState.currentFilters.search)
    ∧ (applyFilters filterSampleState).filteredConferences
        = filterSampleState.conferences.filter (specIncluded filterSampleState.currentFilters) :=
  ⟨⟨by decide, by decide⟩,
    (applyFilters_theme_search filterSampleState (by decide) (by decide)).1⟩

/-! ## Month-window facts -/

/-- Closed form of generateMonths: the loop bound evaluates to 24 and
the fiscal year start is the April-aligned year of the current date. -/
theorem generateMonths_eq (y : Int) (m : Nat) :
    generateMonths y m =
      { months := (List.range 24).map (monthSlotAt (if 3 ≤ m then y else y - 1))
        currentMonthIndex := (y - (if 3 ≤ m then y else y - 1)) * 12 + ((m : Int) - 3) } := by
  have h24 : ∀ z : Int, ((z + 2 - z) * 12 + ((2 : Int) - 3) + 1).toNat = 24 := by
    intro z
    omega
  by_cases hm3 : 3 ≤ m <;>
    simp only [generateMonths, hm3, if_true, if_false, h24]

/-- The year and month of the slot at position i of the window. -/
theorem months_get (y : Int) (m : Nat) (i : Nat) (hi : i < 24) :
    ((generateMonths y m).months.map slotYM)[i]? =
      some ((if 3 ≤ m then y else y - 1) + ((3 + i) / 12 : Nat), (3 + i) % 12 + 1) := by
  rw [generateMonths_eq]
  simp [List.getElem?_map, List.getElem?_range, hi, monthSlotAt, slotYM]

/-- C3: for every current date the window is an ordered, contiguous,
gap-free sequence of exactly 24 slots from April of the fiscal-year
start (the previous calendar year for January through March, else the
current year) to March two years later, and currentMonthIndex is the
unique zero-based position of the current year and month; for November
2025 the window is April 2025 through March 2027 with index 7. -/
theorem generateMonths_window (y : Int) (m : Nat) (hm : m < 12) :
    (generateMonths y m).months.length = 24
    ∧ ((generateMonths y m).months.map slotYM)[0]? = some (if 3 ≤ m then y else y - 1, 4)
    ∧ ((generateMonths y m).months.map slotYM)[23]? = some ((if 3 ≤ m then y else y - 1) + 2, 3)
    ∧ (∀ i, i + 1 < 24 →
        ((generateMonths y m).months.map slotYM)[i + 1]? =
          (((generateMonths y m).months.map slotYM)[i]?).map nextYM)
    ∧ 0 ≤ (generateMonths y m).currentMonthIndex
    ∧ (generateMonths y m).currentMonthIndex < 24
    ∧ ((generateMonths y m).months.map slotYM)[(generateMonths y m).currentMonthIndex.toNat]?
        = some (y, m + 1)
    ∧ (∀ j : Nat, j < 24 → ((generateMonths y m).months.map slotYM)[j]? = some (y, m + 1) →
        (j : Int) = (generateMonths y m).currentMonthIndex)
    ∧ (generateMonths 2025 10).currentMonthIndex = 7
    ∧ (generateMonths 2025 10).months.map slotYM =
        [(2025, 4), (2025, 5), (2025, 6), (2025, 7), (2025, 8), (2025, 9),
         (2025, 10), (2025, 11), (2025, 12), (2026, 1), (2026, 2), (2026, 3),
         (2026, 4), (2026, 5), (2026, 6), (2026, 7), (2026, 8), (2026, 9),
         (2026, 10), (2026, 11), (2026, 12), (2027, 1), (2027, 2), (2027, 3)] := by
  have hidx : (generateMonths y m).currentMonthIndex
      = (y - (if 3 ≤ m then y else y - 1)) * 12 + ((m : Int) - 3) := by
    rw [generateMonths_eq]
  refine ⟨?_, ?_, ?_, ?_, ?_, ?_, ?_, ?_, by decide, by decide⟩
  · simp [generateMonths_eq]
  · rw [months_get y m 0 (by omega)]
    norm_num
  · rw [months_get y m 23 (by omega)]
    norm_num
  · intro i hi
    rw [months_get y m (i + 1) (by omega), months_get y m i (by omega)]
    have hms : ∀ p : Int × Nat, (some p).map nextYM = some (nextYM p) := fun p => rfl
    rw [hms]
    unfold nextYM
    split_ifs <;> simp_all [Prod.mk.injEq] <;> omega
  · rw [hidx]
    split <;> omega
  · rw [hidx]
    split <;> omega
  · have htn : (generateMonths y m).currentMonthIndex.toNat
        = if 3 ≤ m then m - 3 else m + 9 := by
      rw [hidx]
      split <;> omega
    rw [htn]
    by_cases hm3 : 3 ≤ m
    · rw [if_pos hm3, months_get y m (m - 3) (by omega), if_pos hm3]
      simp only [Option.some.injEq, Prod.mk.injEq]
      constructor <;> omega
    · rw [if_neg hm3, months_get y m (m + 9) (by omega), if_neg hm3]
      simp only [Option.some.injEq, Prod.mk.injEq]
      constructor <;> omega
  · intro j hj hjeq
    rw [months_get y m j hj] at hjeq
    simp only [Option.some.injEq, Prod.mk.injEq] at hjeq
    rw [hidx]
    rcases hjeq with ⟨h1, h2⟩
    by_cases hm3 : 3 ≤ m
    · rw [if_pos hm3] at h1 ⊢
      omega
    · rw [if_neg hm3] at h1 ⊢
      omega

/-- Witness for generateMonths_window at November 2025. -/
theorem generateMonths_window_witness :
    (10 : Nat) < 12 ∧ (generateMonths 2025 10).months.length = 24 :=
  ⟨by decide, (generateMonths_window 2025 10 (by decide)).1⟩

/-! ## Bucketizer facts -/

/-- Characterization of getDeadlinesInMonth: per year, the decorated
copies of the deadlines that land in the slot, followed by the synthetic
conference entry when the conference dates land in the slot. -/
theorem getDeadlines_char (conf : ConferenceRecord) (info : List (String × YearInfo))
    (slot : MonthSlot) (h : conf.information = some info) :
    getDeadlinesInMonth conf slot =
      info.flatMap fun p =>
        ((p.2.deadlines.getD []).filter fun d => deadlineLandsIn d slot).map (deadlineEntryOf conf p.1)
          ++ (match p.2.conference_dates with
            | none => []
            | some cd =>
              if confDatesLandIn cd slot then [conferenceEntryOf conf p.1 p.2 cd] else []) := by
  unfold getDeadlinesInMonth
  rw [h]
  show info.flatMap _ = info.flatMap _
  refine congrArg info.flatMap ?_
  funext p
  congr 1
  cases hd : p.2.deadlines with
  | none => rfl
  | some ds => simp [filterMap_if_eq]

/-- A deadline that lands in the slot is emitted into the slot's bucket. -/
theorem deadlineEntry_mem (conf : ConferenceRecord) (info : List (String × YearInfo))
    (slot : MonthSlot) (hinfo : conf.information = some info)
    (yl : String) (yi : YearInfo) (hmem : (yl, yi) ∈ info)
    (d : DeadlineRecord) (hd : d ∈ yi.deadlines.getD [])
    (hl : deadlineLandsIn d slot = true) :
    deadlineEntryOf conf yl d ∈ getDeadlinesInMonth conf slot := by
  rw [getDeadlines_char conf info slot hinfo]
  refine List.mem_flatMap.mpr ⟨(yl, yi), hmem, ?_⟩
  refine List.mem_append.mpr (Or.inl ?_)
  exact List.mem_map.mpr ⟨d, List.mem_filter.mpr ⟨hd, hl⟩, rfl⟩

/-- Conference dates that land in the slot emit the synthetic entry into
the slot's bucket. -/
theorem conferenceEntry_mem (conf : ConferenceRecord) (info : List (String × YearInfo))
    (slot : MonthSlot) (hinfo : conf.information = some info)
    (yl : String) (yi : YearInfo) (cd : ConferenceDates) (hmem : (yl, yi) ∈ info)
    (hcd : yi.conference_dates = some cd) (hl : confDatesLandIn cd slot = true) :
    conferenceEntryOf conf yl yi cd ∈ getDeadlinesInMonth conf slot := by
  rw [getDeadlines_char conf info slot hinfo]
  refine List.mem_flatMap.mpr ⟨(yl, yi), hmem, ?_⟩
  refine List.mem_append.mpr (Or.inr ?_)
  simp only [hcd, hl, if_true]
  exact List.mem_singleton.mpr rfl

/-- Every bucket entry originates from a landing deadline or from
landing conference dates of some year of the information mapping. -/
theorem getDeadlines_provenance (conf : ConferenceRecord) (info : List (String × YearInfo))
    (slot : MonthSlot) (hinfo : conf.information = some info) :
    ∀ e ∈ getDeadlinesInMonth conf slot, ∃ yl yi, (yl, yi) ∈ info ∧
      ((∃ d, d ∈ yi.deadlines.getD [] ∧ deadlineLandsIn d slot = true
          ∧ e = deadlineEntryOf conf yl d)
        ∨ (∃ cd, yi.conference_dates = some cd ∧ confDatesLandIn cd slot = true
          ∧ e = conferenceEntryOf conf yl yi cd)) := by
  intro e he
  rw [getDeadlines_char conf info slot hinfo] at he
  obtain ⟨⟨yl, yi⟩, hmem, hin⟩ := List.mem_flatMap.mp he
  refine ⟨yl, yi, hmem, ?_⟩
  rcases List.mem_append.mp hin with h | h
  · obtain ⟨d, hd, he'⟩ := List.mem_map.mp h
    obtain ⟨hdm, hdl⟩ := List.mem_filter.mp hd
    exact Or.inl ⟨d, hdm, hdl, he'.symm⟩
  · right
    cases hcd : yi.conference_dates with
    | none =>
      simp only [hcd] at h
      simp at h
    | some cd =>
      simp only [hcd] at h
      by_cases hl : confDatesLandIn cd slot
      · simp only [hl, if_true] at h
        exact ⟨cd, rfl, hl, (List.mem_singleton.mp h)⟩
      · simp [hl] at h

/-- The bucket size is the number of landing deadlines plus one for each
year whose conference dates land in the slot. -/
theorem getDeadlines_length (conf : ConferenceRecord) (info : List (String × YearInfo))
    (slot : MonthSlot) (hinfo : conf.information = some info) :
    (getDeadlinesInMonth conf slot).length =
      (info.map fun p =>
        ((p.2.deadlines.getD []).countP fun d => deadlineLandsIn d slot)
          + (if yearConfLandsIn p.2 slot then 1 else 0)).sum := by
  rw [getDeadlines_char conf info slot hinfo, List.length_flatMap]
  refine congrArg List.sum ?_
  refine congrArg info.map ?_
  funext p
  simp only [Function.comp_apply]
  rw [List.length_append, List.length_map]
  congr 1
  · exact (List.countP_eq_length_filter _ _).symm
  · cases hcd : p.2.conference_dates with
    | none => simp [yearConfLandsIn, hcd]
    | some cd => by_cases hl : confDatesLandIn cd slot <;> simp [yearConfLandsIn, hcd, hl]

/-- A deadline record lands in at most one (year, month). -/
theorem deadlineLandsIn_unique (d : DeadlineRecord) (s1 s2 : MonthSlot)
    (h1 : deadlineLandsIn d s1 = true) (h2 : deadlineLandsIn d s2 = true) :
    s1.year = s2.year ∧ s1.month = s2.month := by
  unfold deadlineLandsIn at h1 h2
  rcases hd : d.date with _ | s
  · simp only [hd] at h1
    simp at h1
  · simp only [hd] at h1 h2
    by_cases hs : s = ""
    · simp [hs] at h1
    · simp only [if_neg hs] at h1 h2
      rcases hp : jsParseDate s with _ | dt
      · simp only [hp] at h1
        simp at h1
      · simp only [hp] at h1 h2
        have hc1 : dt.year = s1.year ∧ dt.monthIndex + 1 = s1.month := by
          by_contra hcon
          rw [if_neg hcon] at h1
          simp at h1
        have hc2 : dt.year = s2.year ∧ dt.monthIndex + 1 = s2.month := by
          by_contra hcon
          rw [if_neg hcon] at h2
          simp at h2
        obtain ⟨hy1, hm1⟩ := hc1
        obtain ⟨hy2, hm2⟩ := hc2
        exact ⟨by omega, by omega⟩

/-- Sufficient condition for conference dates to land in a slot. -/
theorem confDatesLandIn_of (cd : ConferenceDates) (slot : MonthSlot) (s : String)
    (dt : ParsedDate) (hs : cd.start = some s) (hne : s ≠ "")
    (hp : jsParseDate s = some dt) (hy : dt.year = slot.year)
    (hmo : dt.monthIndex + 1 = slot.month) : confDatesLandIn cd slot = true := by
  unfold confDatesLandIn
  rw [hs]
  simp [hne, hp, hy, hmo]

/-- C4: the bucket of a slot holds exactly the deadline records whose
parsed date has the slot's year and month — the count equals the number
of landing deadlines (plus the synthetic conference entries), every
landing deadline is emitted, every emitted entry originates from a
landing source record, a deadline lands in at most one (year, month),
and the 2026-03-10 sample deadline appears in the 2026/03 slot of the
generated window and in no other slot. -/
theorem getDeadlinesInMonth_exact (conf : ConferenceRecord) (info : List (String × YearInfo))
    (slot : MonthSlot) (hinfo : conf.information = some info) :
    (getDeadlinesInMonth conf slot).length =
      (info.map fun p =>
        ((p.2.deadlines.getD []).countP fun d => deadlineLandsIn d slot)
          + (if yearConfLandsIn p.2 slot then 1 else 0)).sum
    ∧ (∀ yl yi, (yl, yi) ∈ info → ∀ d ∈ yi.deadlines.getD [],
        deadlineLandsIn d slot = true →
        deadlineEntryOf conf yl d ∈ getDeadlinesInMonth conf slot)
    ∧ (∀ e ∈ getDeadlinesInMonth conf slot, ∃ yl yi, (yl, yi) ∈ info ∧
        ((∃ d, d ∈ yi.deadlines.getD [] ∧ deadlineLandsIn d slot = true
            ∧ e = deadlineEntryOf conf yl d)
          ∨ (∃ cd, yi.conference_dates = some cd ∧ confDatesLandIn cd slot = true
            ∧ e = conferenceEntryOf conf yl yi cd)))
    ∧ (∀ (d : DeadlineRecord) (s1 s2 : MonthSlot),
        deadlineLandsIn d s1 = true → deadlineLandsIn d s2 = true →
        s1.year = s2.year ∧ s1.month = s2.month)
    ∧ ((generateMonths 2025 10).months.countP fun s =>
        !(getDeadlinesInMonth marchConf s).isEmpty) = 1
    ∧ (⟨2026, 3, "2026/03"⟩ : MonthSlot) ∈ (generateMonths 2025 10).months
    ∧ getDeadlinesInMonth marchConf ⟨2026, 3, "2026/03"⟩
        = [deadlineEntryOf marchConf "2026" marchDeadline] :=
  ⟨getDeadlines_length conf info slot hinfo,
    fun yl yi hmem d hd hl => deadlineEntry_mem conf info slot hinfo yl yi hmem d hd hl,
    getDeadlines_provenance conf info slot hinfo,
    fun d s1 s2 h1 h2 => deadlineLandsIn_unique d s1 s2 h1 h2,
    by decide, by decide, by decide⟩

/-- Witness for getDeadlinesInMonth_exact at the March sample. -/
theorem getDeadlinesInMonth_exact_witness :
    marchConf.information = some [("2026",
      { deadlines := some [marchDeadline], conference_dates := none, is_predicted := none })]
    ∧ getDeadlinesInMonth marchConf ⟨2026, 3, "2026/03"⟩
        = [deadlineEntryOf marchConf "2026" marchDeadline] :=
  ⟨rfl, (getDeadlinesInMonth_exact marchConf _ ⟨2026, 3, "2026/03"⟩ rfl).2.2.2.2.2.2⟩

/-- C5: a YearInfo whose conference_dates.start parses into the slot's
year and month emits the synthetic conference entry carrying the start
and end dates, the fixed label, and the YearInfo's is_predicted flag;
the June 2026 sample produces exactly that one entry in the 2026/06 slot
and in no other slot of the window, formatted 6/1-6/5, while entries of
other types or without an end date format as month/day. -/
theorem conference_dates_entry (conf : ConferenceRecord) (info : List (String × YearInfo))
    (yl : String) (yi : YearInfo) (cd : ConferenceDates) (s : String) (dt : ParsedDate)
    (slot : MonthSlot) (hinfo : conf.information = some info) (hmem : (yl, yi) ∈ info)
    (hcd : yi.conference_dates = some cd) (hs : cd.start = some s) (hne : s ≠ "")
    (hp : jsParseDate s = some dt) (hy : dt.year = slot.year)
    (hmo : dt.monthIndex + 1 = slot.month) :
    conferenceEntryOf conf yl yi cd ∈ getDeadlinesInMonth conf slot
    ∧ (conferenceEntryOf conf yl yi cd).type = some "conference"
    ∧ (conferenceEntryOf conf yl yi cd).date = some s
    ∧ (conferenceEntryOf conf yl yi cd).endDate = cd.«end»
    ∧ (conferenceEntryOf conf yl yi cd).label = some "Conference Date"
    ∧ (conferenceEntryOf conf yl yi cd).is_predicted = some (yi.is_predicted.getD false)
    ∧ getDeadlinesInMonth juneConf ⟨2026, 6, "2026/06"⟩ = [juneEntry]
    ∧ (∀ s2 ∈ (generateMonths 2025 10).months,
        (s2.year = 2026 ∧ s2.month = 6) ∨ getDeadlinesInMonth juneConf s2 = [])
    ∧ formatDeadline juneEntry = "6/1-6/5"
    ∧ (∀ e : DeadlineEntry, e.type = some "conference" → e.endDate = none →
        ∀ ds dtv, e.date = some ds → jsParseDate ds = some dtv →
        formatDeadline e = toString (dtv.monthIndex + 1) ++ "/" ++ toString dtv.day)
    ∧ (∀ e : DeadlineEntry, e.type ≠ some "conference" →
        ∀ ds dtv, e.date = some ds → jsParseDate ds = some dtv →
        formatDeadline e = toString (dtv.monthIndex + 1) ++ "/" ++ toString dtv.day)
    ∧ (∀ e : DeadlineEntry, e.type = some "conference" →
        ∀ es ds dts dte, e.endDate = some es → es ≠ "" → e.date = some ds →
        jsParseDate ds = some dts → jsParseDate es = some dte →
        formatDeadline e = toString (dts.monthIndex + 1) ++ "/" ++ toString dts.day
          ++ "-" ++ toString (dte.monthIndex + 1) ++ "/" ++ toString dte.day) := by
  refine ⟨conferenceEntry_mem conf info slot hinfo yl yi cd hmem hcd
      (confDatesLandIn_of cd slot s dt hs hne hp hy hmo),
    rfl, by simp [conferenceEntryOf, hs], rfl, rfl, rfl,
    by decide, by decide, by decide, ?_, ?_, ?_⟩
  · intro e ht hend ds dtv hdate hparse
    unfold formatDeadline
    rw [if_neg ?_]
    · unfold jsMonthDay
      rw [hdate]
      simp [hparse]
    · intro hcon
      rw [hend] at hcon
      simp [truthyStr] at hcon
  · intro e ht ds dtv hdate hparse
    unfold formatDeadline
    rw [if_neg fun hcon => ht hcon.1]
    unfold jsMonthDay
    rw [hdate]
    simp [hparse]
  · intro e ht es ds dts dte hend hesne hdate hps hpe
    unfold formatDeadline
    rw [if_pos ⟨ht, by rw [hend]; simp [truthyStr, hesne]⟩]
    unfold jsMonthDay
    rw [hdate, hend]
    simp [hps, hpe, String.append_assoc]

/-- Witness for conference_dates_entry at the June sample. -/
theorem conference_dates_entry_witness :
    (juneConf.information = some [("2026", juneYearInfo)]
      ∧ juneYearInfo.conference_dates = some juneCD
      ∧ juneCD.start = some "2026-06-01"
      ∧ jsParseDate "2026-06-01" = some { year := 2026, monthIndex := 5, day := 1 })
    ∧ conferenceEntryOf juneConf "2026" juneYearInfo juneCD
        ∈ getDeadlinesInMonth juneConf ⟨2026, 6, "2026/06"⟩ :=
  ⟨⟨rfl, rfl, rfl, by decide⟩,
    (conference_dates_entry juneConf [("2026", juneYearInfo)] "2026" juneYearInfo juneCD
      "2026-06-01" { year := 2026, monthIndex := 5, day := 1 } ⟨2026, 6, "2026/06"⟩
      rfl (by decide) rfl rfl (by decide) (by decide) (by decide) (by decide)).1⟩

/-- C6 counterexample: the empty-string-dated deadline of the mixed
sample conference is excluded from every slot of the generated window,
yet the bucketizer emits no warning at all (its body contains no console
call), and the remaining good deadline is still emitted — refuting the
claim that exclusion comes with a logged warning. -/
theorem bad_date_no_warning :
    ((generateMonths 2025 10).months.all fun s2 =>
        decide (deadlineEntryOf mixedConf "2026" emptyDateDeadline
          ∉ getDeadlinesInMonth mixedConf s2)) = true
    ∧ getDeadlinesInMonthWarnings mixedConf ⟨2026, 3, "2026/03"⟩ = []
    ∧ getDeadlinesInMonth mixedConf ⟨2026, 3, "2026/03"⟩
        = [deadlineEntryOf mixedConf "2026" marchDeadline] :=
  ⟨by decide, rfl, by decide⟩

/-- The decorated copy of a deadline does not depend on the information
field of the conference (only short_name is read). -/
theorem deadlineEntryOf_information (conf : ConferenceRecord)
    (x : Option (List (String × YearInfo))) (yl : String) :
    deadlineEntryOf { conf with information := x } yl = deadlineEntryOf conf yl := by
  funext d
  rfl

/-- C6 amended: an entry whose date is absent, empty, or unparseable
lands in no slot, its removal leaves every bucket unchanged (all other
entries are processed normally and nothing raises, the model being
total), and the bucketizer logs no warning. -/
theorem bad_date_excluded (conf : ConferenceRecord) (slot : MonthSlot)
    (pre post : List (String × YearInfo)) (yl : String) (yi : YearInfo)
    (ds1 ds2 : List DeadlineRecord) (d : DeadlineRecord)
    (hinfo : conf.information = some (pre ++ (yl, yi) :: post))
    (hds : yi.deadlines = some (ds1 ++ d :: ds2))
    (hbad : d.date = none ∨ d.date = some "" ∨ jsParseDate (d.date.getD "") = none) :
    deadlineLandsIn d slot = false
    ∧ getDeadlinesInMonth conf slot
        = getDeadlinesInMonth { conf with information := some (pre ++ (yl, { yi with deadlines := some (ds1 ++ ds2) }) :: post) } slot
    ∧ getDeadlinesInMonthWarnings conf slot = [] := by
  have hfalse : deadlineLandsIn d slot = false := by
    unfold deadlineLandsIn
    rcases hbad with h | h | h
    · simp [h]
    · simp [h]
    · rcases hd : d.date with _ | s
      · simp
      · rw [hd] at h
        simp only [Option.getD_some] at h
        by_cases hs : s = ""
        · simp [hd, hs]
        · simp [hd, hs, h]
  refine ⟨hfalse, ?_, rfl⟩
  rw [getDeadlines_char conf _ slot hinfo, getDeadlines_char _ _ slot rfl]
  simp only [List.flatMap_append, List.flatMap_cons]
  congr 1
  congr 1
  simp only [hds, deadlineEntryOf_information, conferenceEntryOf, Option.getD_some,
    List.filter_append, List.filter_cons, hfalse, Bool.false_eq_true, if_false]

/-- Witness for bad_date_excluded at the mixed sample conference. -/
theorem bad_date_excluded_witness :
    (mixedConf.information = some [("2026", mixedYearInfo)]
      ∧ mixedYearInfo.deadlines = some [emptyDateDeadline, marchDeadline]
      ∧ emptyDateDeadline.date = some "")
    ∧ deadlineLandsIn emptyDateDeadline ⟨2026, 3, "2026/03"⟩ = false :=
  ⟨⟨rfl, rfl, rfl⟩,
    (bad_date_excluded mixedConf ⟨2026, 3, "2026/03"⟩ [] [] "2026" mixedYearInfo
      [] [marchDeadline] emptyDateDeadline rfl rfl (Or.inr (Or.inl rfl))).1⟩

/-- C8: applyFilters rewrites only filteredConferences — the source
conference list and the filter state are left unchanged, the filtered
list is an order-preserving sublist whose elements are the original
records themselves — and every bucket entry of getDeadlinesInMonth is a
freshly built record derived from an unmodified source record. -/
theorem applyFilters_bucketize_frame (st : CalendarState) (conf : ConferenceRecord)
    (info : List (String × YearInfo)) (slot : MonthSlot)
    (hinfo : conf.information = some info) :
    (applyFilters st).conferences = st.conferences
    ∧ (applyFilters st).currentFilters = st.currentFilters
    ∧ (applyFilters st).filteredConferences.Sublist st.conferences
    ∧ (∀ c ∈ (applyFilters st).filteredConferences, c ∈ st.conferences)
    ∧ (∀ e ∈ getDeadlinesInMonth conf slot, ∃ yl yi, (yl, yi) ∈ info ∧
        ((∃ d, d ∈ yi.deadlines.getD [] ∧ e = deadlineEntryOf conf yl d)
          ∨ (∃ cd, yi.conference_dates = some cd ∧ e = conferenceEntryOf conf yl yi cd))) := by
  refine ⟨rfl, rfl, List.filter_sublist _, ?_, ?_⟩
  · intro c hc
    exact (List.filter_sublist _).subset hc
  · intro e he
    obtain ⟨yl, yi, hmem, hcase⟩ := getDeadlines_provenance conf info slot hinfo e he
    refine ⟨yl, yi, hmem, ?_⟩
    rcases hcase with ⟨d, hd, _, he'⟩ | ⟨cd, hcd, _, he'⟩
    · exact Or.inl ⟨d, hd, he'⟩
    · exact Or.inr ⟨cd, hcd, he'⟩

/-- Witness for applyFilters_bucketize_frame at the sample state. -/
theorem applyFilters_bucketize_frame_witness :
    marchConf.information = some [("2026",
      { deadlines := some [marchDeadline], conference_dates := none, is_predicted := none })]
    ∧ (applyFilters filterSampleState).conferences = filterSampleState.conferences :=
  ⟨rfl,
    (applyFilters_bucketize_frame filterSampleState marchConf _ ⟨2026, 1, "2026/01"⟩ rfl).1⟩

/-- C9: when the YearInfo's is_predicted field is absent or false, the
synthetic conference entry carries the concrete boolean false (never an
undefined field), it is emitted into the matching bucket, and the
Predicted note of the detail popup stays empty. -/
theorem conference_entry_predicted_default (conf : ConferenceRecord)
    (info : List (String × YearInfo)) (yl : String) (yi : YearInfo) (cd : ConferenceDates)
    (slot : MonthSlot) (hinfo : conf.information = some info) (hmem : (yl, yi) ∈ info)
    (hcd : yi.conference_dates = some cd) (hland : confDatesLandIn cd slot = true)
    (hip : yi.is_predicted = none ∨ yi.is_predicted = some false) :
    (conferenceEntryOf conf yl yi cd).is_predicted = some false
    ∧ conferenceEntryOf conf yl yi cd ∈ getDeadlinesInMonth conf slot
    ∧ predictedNote (conferenceEntryOf conf yl yi cd) = "" := by
  have h1 : (conferenceEntryOf conf yl yi cd).is_predicted = some false := by
    unfold conferenceEntryOf
    rcases hip with h | h <;> simp [h]
  refine ⟨h1, conferenceEntry_mem conf info slot hinfo yl yi cd hmem hcd hland, ?_⟩
  unfold predictedNote
  rw [h1]
  simp

/-- Witness for conference_entry_predicted_default at the June sample. -/
theorem conference_entry_predicted_default_witness :
    (juneYearInfo.is_predicted = none
      ∧ confDatesLandIn juneCD ⟨2026, 6, "2026/06"⟩ = true)
    ∧ (conferenceEntryOf juneConf "2026" juneYearInfo juneCD).is_predicted = some false :=
  ⟨⟨rfl, by decide⟩,
    (conference_entry_predicted_default juneConf [("2026", juneYearInfo)] "2026" juneYearInfo
      juneCD ⟨2026, 6, "2026/06"⟩ rfl (by decide) rfl (by decide) (Or.inl rfl)).1⟩

/-- C10: a conference with no information mapping, or whose YearInfo
entries all lack a deadlines list and lack conference dates (or their
start), yields an empty bucket for every slot; the model is total, so
nothing raises. -/
theorem missing_structure_empty_bucket (conf : ConferenceRecord) (slot : MonthSlot) :
    (conf.information = none → getDeadlinesInMonth conf slot = [])
    ∧ (∀ info, conf.information = some info →
        (∀ yl yi, (yl, yi) ∈ info → yi.deadlines = none
            ∧ (yi.conference_dates = none
              ∨ ∃ cd, yi.conference_dates = some cd ∧ cd.start = none)) →
        getDeadlinesInMonth conf slot = []) := by
  constructor
  · intro h
    unfold getDeadlinesInMonth
    rw [h]
  · intro info hinfo hall
    rw [getDeadlines_char conf info slot hinfo]
    refine List.flatMap_eq_nil_iff.mpr ?_
    intro p hp
    obtain ⟨hd, hcd⟩ := hall p.1 p.2 hp
    rcases hcd with h | ⟨cd, hc, hst⟩
    · simp [hd, h]
    · simp [hd, hc, confDatesLandIn, hst]

/-- Witness for missing_structure_empty_bucket at the bare sample. -/
theorem missing_structure_empty_bucket_witness :
    bareConf.information = none
    ∧ getDeadlinesInMonth bareConf ⟨2026, 1, "2026/01"⟩ = [] :=
  ⟨rfl, (missing_structure_empty_bucket bareConf ⟨2026, 1, "2026/01"⟩).1 rfl⟩

/-! ## Theme stripping facts -/

/-- A dot-or-whitespace character of the regex bracket class is not a
digit. -/
theorem themeSep_not_digit (c : Char) (h : themeSep c = true) : c.isDigit = false := by
  simp only [themeSep, jsSpace, Bool.or_eq_true, beq_iff_eq] at h
  have h2 : c = '.' ∨ c = ' ' ∨ c = '\t' ∨ c = '\n' ∨ c = '\r' ∨ c = '\x0b' ∨ c = '\x0c' := by
    tauto
  rcases h2 with rfl | rfl | rfl | rfl | rfl | rfl | rfl <;> decide

/-- On a string without the numeric mark the regex replacement is the
identity, so stripThemePrefix reduces to trim alone. -/
theorem stripThemePrefix_no_mark (s : String) (h : hasNumericThemeMark s = false) :
    stripThemePrefix s = jsTrim s := by
  by_cases hempty : s = ""
  · subst hempty
    decide
  · unfold stripThemePrefix
    rw [if_neg hempty]
    cases hA : (s.data.takeWhile Char.isDigit).isEmpty
    · cases hB : ((s.data.dropWhile Char.isDigit).takeWhile themeSep).isEmpty
      · exfalso
        unfold hasNumericThemeMark at h
        rw [hA, hB] at h
        simp at h
      · simp only [hA, hB, Bool.false_eq_true, if_false, if_true]
    · simp only [hA, if_true]

/-- On a digits-then-separators head the regex removes exactly that
head, so stripThemePrefix is trim of the remainder. -/
theorem stripThemePrefix_strips (ds ps rest : List Char)
    (hds : ds ≠ []) (hdig : ∀ c ∈ ds, c.isDigit = true)
    (hps : ps ≠ []) (hsep : ∀ c ∈ ps, themeSep c = true)
    (hrest : ∀ c ∈ rest.head?, themeSep c = false) :
    stripThemePrefix ⟨ds ++ ps ++ rest⟩ = jsTrim ⟨rest⟩ := by
  have hne : (⟨ds ++ ps ++ rest⟩ : String) ≠ "" := by
    intro hcon
    have hmk : ("" : String) = ⟨[]⟩ := rfl
    rw [hmk] at hcon
    have hl : (ds ++ ps) ++ rest = [] := congrArg String.data hcon
    exact hds (List.append_eq_nil.mp (List.append_eq_nil.mp hl).1).1
  obtain ⟨p0, ps', rfl⟩ : ∃ p0 ps', ps = p0 :: ps' := by
    cases ps with
    | nil => exact absurd rfl hps
    | cons a t => exact ⟨a, t, rfl⟩
  have hp0d : p0.isDigit = false := themeSep_not_digit p0 (hsep p0 (by simp))
  have hA : (ds ++ (p0 :: ps') ++ rest).takeWhile Char.isDigit = ds := by
    rw [List.append_assoc, takeWhile_append_all Char.isDigit ds ((p0 :: ps') ++ rest) hdig]
    have hz : ((p0 :: ps') ++ rest).takeWhile Char.isDigit = [] := by
      apply takeWhile_head_false
      intro c hc
      simp at hc
      subst hc
      exact hp0d
    rw [hz, List.append_nil]
  have hAne : ds.isEmpty = false := by
    cases ds with
    | nil => exact absurd rfl hds
    | cons a t => rfl
  have hB : (ds ++ (p0 :: ps') ++ rest).dropWhile Char.isDigit = (p0 :: ps') ++ rest := by
    rw [List.append_assoc, dropWhile_append_all Char.isDigit ds ((p0 :: ps') ++ rest) hdig]
    apply dropWhile_head_false
    intro c hc
    simp at hc
    subst hc
    exact hp0d
  have hC : ((p0 :: ps') ++ rest).takeWhile themeSep = p0 :: ps' := by
    rw [takeWhile_append_all themeSep (p0 :: ps') rest hsep,
      takeWhile_head_false themeSep rest hrest, List.append_nil]
  have hCe : (((p0 :: ps') ++ rest).takeWhile themeSep).isEmpty = false := by
    rw [hC]
    rfl
  have hD : ((p0 :: ps') ++ rest).dropWhile themeSep = rest := by
    rw [dropWhile_append_all themeSep (p0 :: ps') rest hsep,
      dropWhile_head_false themeSep rest hrest]
  unfold stripThemePrefix
  rw [if_neg hne]
  have hdata : (⟨ds ++ (p0 :: ps') ++ rest⟩ : String).data = ds ++ (p0 :: ps') ++ rest := rfl
  simp only [hdata, hA, hAne, hB, hCe, hD, Bool.false_eq_true, if_false]

/-- C7 counterexample: stripThemePrefix is not the identity on the
non-prefixed input consisting of a leading space and a word, because the
source applies trim unconditionally. -/
theorem stripThemePrefix_not_identity :
    stripThemePrefix " Systems" ≠ " Systems" := by decide

/-- C7 amended: on a string with a numeric mark (digits then dots or
whitespace) stripThemePrefix yields the remainder trimmed of surrounding
whitespace; on every string without such a mark it yields the trimmed
string, hence is the identity exactly on those inputs with no leading or
trailing whitespace; the two spec examples hold. -/
theorem stripThemePrefix_trim :
    (∀ ds ps rest : List Char, ds ≠ [] → (∀ c ∈ ds, c.isDigit = true) →
        ps ≠ [] → (∀ c ∈ ps, themeSep c = true) →
        (∀ c ∈ rest.head?, themeSep c = false) →
        stripThemePrefix ⟨ds ++ ps ++ rest⟩ = jsTrim ⟨rest⟩)
    ∧ (∀ s : String, hasNumericThemeMark s = false → stripThemePrefix s = jsTrim s)
    ∧ (∀ s : String, hasNumericThemeMark s = false → jsTrim s = s → stripThemePrefix s = s)
    ∧ stripThemePrefix "01. Systems" = "Systems"
    ∧ stripThemePrefix "Systems" = "Systems" :=
  ⟨stripThemePrefix_strips,
    stripThemePrefix_no_mark,
    fun s h ht => (stripThemePrefix_no_mark s h).trans ht,
    by decide, by decide⟩

/-- Witness for stripThemePrefix_trim at the 01-dot-space sample. -/
theorem stripThemePrefix_trim_witness :
    stripThemePrefix ⟨['0', '1'] ++ ['.', ' '] ++ ['S', 'y', 's']⟩ = jsTrim ⟨['S', 'y', 's']⟩ :=
  stripThemePrefix_trim.1 ['0', '1'] ['.', ' '] ['S', 'y', 's'] (by decide) (by decide)
    (by decide) (by decide) (by decide)
